import Mathlib

/-!
Shallow embedding of `proxy_server.py` (and the credential loader shape of
`process_keys.py`) from the gemini-multi-key-connector repository.

The embedding models:
* the per-(credential, model) usage state (`api_keys` with its `usage` dicts);
* the daily reset body of `reset_rpd_limits_daily` (lines 69-75);
* the 429 handler `handle_rate_limit_error` (lines 168-202);
* the dispatch loop of `proxy_to_gemini` (lines 293-392), with upstream
  responses supplied by an oracle indexed by (key index, attempt number);
* the request translator `convert_openai_to_gemini_request` (lines 106-136);
* the legacy api-key extraction of `proxy_to_gemini` (lines 317-323).

Python dicts are modelled as association lists (insertion order preserved,
keys unique, `setdefault` appends at the end), machine integers as `Nat`
(the counters only ever grow by 1), and the parsed float retry delay as a
`Nat` stand-in for the parsed numeric value (no claim depends on float
semantics, only on the delay being passed through unchanged).
-/

namespace GeminiProxy

/-- `MAX_RETRIES = 3` (proxy_server.py line 16). -/
def MAX_RETRIES : Nat := 3

/-- `RETRY_DELAY_SECONDS = 3` (proxy_server.py line 17). -/
def RETRY_DELAY_SECONDS : Nat := 3

/-- One entry of a key's `usage` dict:
`{'token_count': …, 'request_count': …, 'rpd_limit_reached': …}`. -/
structure UsageRecord where
  token_count : Nat
  request_count : Nat
  rpd_limit_reached : Bool
  deriving Repr, DecidableEq

/-- The record created by both `setdefault` calls
(proxy_server.py lines 196-198 and 309-311). -/
def freshRecord : UsageRecord :=
  { token_count := 0, request_count := 0, rpd_limit_reached := false }

/-- A JSON value, as needed for the `key` field of a stored credential. -/
inductive JVal where
  | nul
  | str (s : String)
  | arr (xs : List JVal)
  | obj (fields : List (String × JVal))

/-- One stored credential: its `key` field plus its `usage` dict
(modelled as an association list from model name to `UsageRecord`;
an absent `usage` field behaves exactly like an empty dict in every
code path we model, so both are represented by `[]`). -/
structure KeyInfo where
  key : JVal
  usage : List (String × UsageRecord)

/-- Python dict lookup on an association list. -/
def lookupA : List (String × UsageRecord) → String → Option UsageRecord
  | [], _ => none
  | (k, v) :: rest, m => if k == m then some v else lookupA rest m

/-- Python `dict.setdefault(m, r₀)`: keep the dict if `m` is present,
otherwise append `(m, r₀)`. -/
def setdefaultA (u : List (String × UsageRecord)) (m : String) (r₀ : UsageRecord) :
    List (String × UsageRecord) :=
  match lookupA u m with
  | some _ => u
  | none => u ++ [(m, r₀)]

/-- Mutating the entry of key `m` in place (`d[m] = f d[m]`); a no-op when
`m` is absent (in the source every such mutation happens after a
`setdefault` that guarantees presence). -/
def updateA : List (String × UsageRecord) → String → (UsageRecord → UsageRecord) →
    List (String × UsageRecord)
  | [], _, _ => []
  | (k, v) :: rest, m, f =>
    if k == m then (k, f v) :: rest else (k, v) :: updateA rest m f

/-- Apply `f` to the `i`-th credential of the list (a no-op out of range;
in the source `i` is always an index produced by `enumerate(api_keys)`). -/
def modKey (ks : List KeyInfo) (i : Nat) (f : KeyInfo → KeyInfo) : List KeyInfo :=
  match ks[i]? with
  | some k => ks.set i (f k)
  | none => ks

/-- The usage record of credential `i` for model `m`, when present. -/
def getRecord (ks : List KeyInfo) (i : Nat) (m : String) : Option UsageRecord :=
  (ks[i]?).bind fun k => lookupA k.usage m

/-- `key_info.setdefault('usage', {}).setdefault(model_name, {...})`
(proxy_server.py lines 308-311, also 195-198): ensure the record exists. -/
def ensureRecord (ks : List KeyInfo) (i : Nat) (m : String) : List KeyInfo :=
  modKey ks i fun k => { k with usage := setdefaultA k.usage m freshRecord }

/-- `model_usage['rpd_limit_reached'] = True` after the two `setdefault`s
(proxy_server.py lines 194-199). -/
def setExhausted (ks : List KeyInfo) (i : Nat) (m : String) : List KeyInfo :=
  modKey ks i fun k =>
    { k with
        usage := updateA (setdefaultA k.usage m freshRecord) m
          (fun r => { r with rpd_limit_reached := true }) }

/-- `api_keys[key_index]['usage'][model_name]['request_count'] += 1`
(proxy_server.py line 344). -/
def incReq (ks : List KeyInfo) (i : Nat) (m : String) : List KeyInfo :=
  modKey ks i fun k =>
    { k with
        usage := updateA k.usage m
          (fun r => { r with request_count := r.request_count + 1 }) }

/-- `model_usage.get('rpd_limit_reached', False)` read on the state
(proxy_server.py line 313). -/
def rpdFlag (ks : List KeyInfo) (i : Nat) (m : String) : Bool :=
  ((getRecord ks i m).map (·.rpd_limit_reached)).getD false

/-- `request_count` of the pair, an absent record reading as 0
(the value `setdefault` would create). -/
def reqCount (ks : List KeyInfo) (i : Nat) (m : String) : Nat :=
  ((getRecord ks i m).map (·.request_count)).getD 0

/-- `token_count` of the pair, an absent record reading as 0. -/
def tokCount (ks : List KeyInfo) (i : Nat) (m : String) : Nat :=
  ((getRecord ks i m).map (·.token_count)).getD 0

/-- The body of the daily reset loop (proxy_server.py lines 69-75): for every
key and every model in its `usage`, clear `rpd_limit_reached` and zero
`request_count`; `token_count` is untouched. -/
def reset_rpd_limits_daily (ks : List KeyInfo) : List KeyInfo :=
  ks.map fun k =>
    { k with usage := k.usage.map fun e =>
        (e.1, { e.2 with rpd_limit_reached := false, request_count := 0 }) }

/-! ## The 429 handler `handle_rate_limit_error` (lines 168-202)

The handler first tries to parse a structured `retryDelay` out of the nested
JSON body; `Body429` records the outcome of that parse chain:
* `details = none` models every caught parse failure before the detail list
  is obtained (malformed outer JSON, non-JSON inner `error.message`, …);
* each detail carries whether its `@type` equals
  `"type.googleapis.com/google.rpc.RetryInfo"` and the state of its
  `retryDelay` field;
* `hasQuotaMetric` models `"quotaMetric" in error_response.text`. -/

/-- A stand-in for the parsed value of `float(retry_info['retryDelay'].replace('s', ''))`. -/
abbrev Delay := Nat

/-- The `retryDelay` field of a detail object. -/
inductive RDField where
  /-- no `retryDelay` key in the detail -/
  | absent
  /-- present but `float(...)` raises `ValueError` -/
  | malformed
  /-- present and parsing to `d` -/
  | value (d : Delay)
  deriving Repr, DecidableEq

/-- One element of `error.details`. -/
structure RetryDetail where
  /-- whether `d.get("@type") == "type.googleapis.com/google.rpc.RetryInfo"` -/
  isRetryInfo : Bool
  rd : RDField
  deriving Repr, DecidableEq

/-- The aspects of a 429 response body read by `handle_rate_limit_error`. -/
structure Body429 where
  details : Option (List RetryDetail)
  hasQuotaMetric : Bool
  deriving Repr, DecidableEq

/-- A body none of whose parse steps succeed and without the quota marker. -/
def emptyBody : Body429 := { details := none, hasQuotaMetric := false }

/-- Lines 174-189: extract the delay of the first `RetryInfo` detail, `none`
on any caught parse failure, an absent `retryDelay` key, or a `ValueError`
from `float`. -/
def parseRetryDelay (b : Body429) : Option Delay :=
  match b.details with
  | none => none
  | some ds =>
    match ds.find? (·.isRetryInfo) with
    | none => none
    | some d =>
      match d.rd with
      | .value v => some v
      | _ => none

/-- `handle_rate_limit_error` (lines 168-202) as a state transformer: returns
the delay (when one parses, returning before the quota check) and the
updated key state (the quota branch sets `rpd_limit_reached`). -/
def handle_rate_limit_error (ks : List KeyInfo) (i : Nat) (m : String) (b : Body429) :
    Option Delay × List KeyInfo :=
  match parseRetryDelay b with
  | some d => (some d, ks)
  | none =>
    if b.hasQuotaMetric then (none, setExhausted ks i m) else (none, ks)

/-! ## Legacy api-key extraction (proxy_to_gemini lines 317-323) -/

/-- Python `dict.get` on a JSON object's fields. -/
def jget : List (String × JVal) → String → Option JVal
  | [], _ => none
  | (k, v) :: rest, key => if k == key then some v else jget rest key

/-- Python indexing `v[i]`: defined on lists, `none` (an exception) otherwise. -/
def jindex : JVal → Nat → Option JVal
  | .arr xs, i => xs[i]?
  | _, _ => none

/-- Lines 317-323: if the stored `key` field is a dict (legacy shape), the
api key is `api_key_data.get('key', [None, None])[1]`; otherwise the stored
value is used directly. `none` models a raised exception. -/
def extract_api_key : JVal → Option JVal
  | .obj fields => jindex ((jget fields "key").getD (.arr [.nul, .nul])) 1
  | v => some v

/-! ## Dispatch engine: `proxy_to_gemini` (lines 293-392)

Upstream behaviour is an oracle mapping (key index, attempt number) to the
outcome of `requests.post`; each such pair is queried at most once per
request, so the oracle determines the whole run.  The run is recorded as a
trace of events (which key/attempt was tried upstream, which sleeps
happened), plus the final state and result. -/

/-- The outcome of one `requests.post` to the upstream. -/
inductive Outcome where
  /-- an HTTP response with this status; the body aspects matter for 429 -/
  | resp (status : Nat) (body : Body429)
  /-- a transport-level `requests.exceptions.RequestException` -/
  | exn

/-- Upstream oracle: key index and attempt number to outcome. -/
abbrev Oracle := Nat → Nat → Outcome

/-- Observable events of a dispatch run. -/
inductive Event where
  /-- `requests.post` issued for key `keyIdx`, attempt `attemptNo` -/
  | attempted (keyIdx : Nat) (attemptNo : Nat)
  /-- `time.sleep(seconds)` -/
  | slept (seconds : Nat)
  deriving Repr, DecidableEq

/-- What `last_error_response` can hold. -/
inductive LastErr where
  /-- a remembered upstream error response `e.response` with this status -/
  | httpResp (status : Nat)
  /-- the `(jsonify({"error": …}), 500)` tuple of a transport failure -/
  | transport
  deriving Repr, DecidableEq

/-- Result of the per-key attempt loop (lines 329-375). -/
inductive KeyStep where
  /-- the success return of lines 341-352 -/
  | succeeded (ks : List KeyInfo) (events : List Event)
  /-- the loop ended or broke: move to the next key -/
  | moveOn (ks : List KeyInfo) (lastErr : Option LastErr) (events : List Event)

/-- Prefix the trace of a `KeyStep`. -/
def KeyStep.prependEvents (es : List Event) : KeyStep → KeyStep
  | .succeeded ks evs => .succeeded ks (es ++ evs)
  | .moveOn ks le evs => .moveOn ks le (es ++ evs)

/-- The key state a `KeyStep` carries. -/
def KeyStep.state : KeyStep → List KeyInfo
  | .succeeded ks _ => ks
  | .moveOn ks _ _ => ks

/-- The event trace a `KeyStep` carries. -/
def KeyStep.events : KeyStep → List Event
  | .succeeded _ evs => evs
  | .moveOn _ _ evs => evs

/-- The inner `for attempt in range(MAX_RETRIES)` loop (lines 329-375) for
key `i`.  `fuel` is the number of iterations left (the current attempt
number is `MAX_RETRIES - fuel`), so `0 < fuel - 1 + 1`, i.e. `0 < fuel` in
the `fuel+1` branch, is exactly the source's `attempt < MAX_RETRIES - 1`.
`lastErr` threads the enclosing `last_error_response` variable. -/
def runAttempts (oracle : Oracle) (i : Nat) (model : String) :
    Nat → List KeyInfo → Option LastErr → KeyStep
  | 0, ks, lastErr => .moveOn ks lastErr []
  | fuel + 1, ks, lastErr =>
    let a := MAX_RETRIES - (fuel + 1)
    match oracle i a with
    | .exn =>
      -- lines 370-375: RequestException; retry unless this was the last attempt
      if 0 < fuel then
        KeyStep.prependEvents [.attempted i a, .slept RETRY_DELAY_SECONDS]
          (runAttempts oracle i model fuel ks lastErr)
      else
        .moveOn ks (some .transport) [.attempted i a]
    | .resp status body =>
      if status == 503 && 0 < fuel then
        -- lines 334-337: 503 before the final attempt: sleep and retry
        KeyStep.prependEvents [.attempted i a, .slept RETRY_DELAY_SECONDS]
          (runAttempts oracle i model fuel ks lastErr)
      else if status < 400 then
        -- lines 339-352: raise_for_status passes; record usage, return
        .succeeded (incReq ks i model) [.attempted i a]
      else if status == 429 then
        -- lines 354-362
        match handle_rate_limit_error ks i model body with
        | (some d, ks₂) =>
          -- sleep the parsed delay and `continue` with the same key
          KeyStep.prependEvents [.attempted i a, .slept d]
            (runAttempts oracle i model fuel ks₂ lastErr)
        | (none, ks₂) =>
          -- `break` to the next key, remembering the response
          .moveOn ks₂ (some (.httpResp 429)) [.attempted i a]
      else
        -- lines 364-368: any other HTTPError
        if 0 < fuel then
          KeyStep.prependEvents [.attempted i a, .slept RETRY_DELAY_SECONDS]
            (runAttempts oracle i model fuel ks lastErr)
        else
          .moveOn ks (some (.httpResp status)) [.attempted i a]

/-- Overall result of a dispatch run. -/
inductive DispatchResult where
  /-- the upstream response relayed from key `keyIdx` -/
  | success (keyIdx : Nat)
  /-- `last_error_response` relayed (lines 377-383) -/
  | errResp (e : LastErr)
  /-- the synthesized all-keys-exhausted 503 (lines 385-392) -/
  | allExhausted
  /-- `api_keys` empty: the 500 of lines 300-302 -/
  | noKeys
  deriving Repr, DecidableEq

/-- Lines 377-392: after the key loop, relay the remembered error if any,
else the synthesized 503. -/
def finishResult : Option LastErr → DispatchResult
  | some e => .errResp e
  | none => .allExhausted

/-- The outer `for key_index, key_info in enumerate(api_keys)` loop
(lines 306-375): `i` is the current index, `fuel` the number of keys left
to visit (the key list's length never changes during a run). -/
def runKeys (oracle : Oracle) (model : String) :
    Nat → Nat → List KeyInfo → Option LastErr →
    DispatchResult × List KeyInfo × List Event
  | 0, _, ks, lastErr => (finishResult lastErr, ks, [])
  | fuel + 1, i, ks, lastErr =>
    if i < ks.length then
      -- lines 307-311: setdefault usage and the model record, under the lock
      -- lines 313-315: skip the key if its rpd flag is set
      if rpdFlag (ensureRecord ks i model) i model then
        runKeys oracle model fuel (i + 1) (ensureRecord ks i model) lastErr
      else
        match runAttempts oracle i model MAX_RETRIES (ensureRecord ks i model) lastErr with
        | .succeeded ks₂ evs => (.success i, ks₂, evs)
        | .moveOn ks₂ le evs =>
          match runKeys oracle model fuel (i + 1) ks₂ le with
          | (res, ks₃, evs₂) => (res, ks₃, evs ++ evs₂)
    else
      (finishResult lastErr, ks, [])

/-- `proxy_to_gemini` (lines 293-392) for one request: the result, the final
key state, and the event trace. -/
def proxy_to_gemini (oracle : Oracle) (model : String) (ks : List KeyInfo) :
    DispatchResult × List KeyInfo × List Event :=
  if ks.isEmpty then (.noKeys, ks, [])
  else runKeys oracle model ks.length 0 ks none

/-- A sequence of requests (each with its own upstream oracle and model),
run back to back against the shared key state; returns the final state. -/
def runSeq : List (Oracle × String) → List KeyInfo → List KeyInfo
  | [], ks => ks
  | (o, m) :: rest, ks => runSeq rest (proxy_to_gemini o m ks).2.1

/-! ## Format translator: `convert_openai_to_gemini_request` (lines 106-136) -/

/-- One typed content part, a dict `{'type': …, 'text': …}`. -/
structure PartD where
  ptype : String
  ptext : String
  deriving Repr, DecidableEq

/-- A message's `content`: either a flat string or a list of typed parts. -/
inductive MsgContent where
  | str (s : String)
  | parts (ps : List PartD)
  deriving Repr, DecidableEq

/-- One inbound chat message `{'role': …, 'content': …}`. -/
structure Msg where
  role : String
  content : MsgContent
  deriving Repr, DecidableEq

/-- Python truthiness of a content value (`if system_prompt`, line 124). -/
def truthy : MsgContent → Bool
  | .str s => !s.isEmpty
  | .parts ps => !ps.isEmpty

/-- How Python string interpolation renders a content value
(`f"{system_prompt}\n{content}"`, lines 126 and 129).  The `.parts` case
abstracts Python's `repr` of a list of dicts; no claim exercises it (the
source only meaningfully stores flat strings in `system_prompt`). -/
def pyStr : MsgContent → String
  | .str s => s
  | .parts ps => String.join (ps.map (·.ptext))

/-- Lines 124-132: prepend the pending system prompt onto a user message's
content: newline-join for a flat string; for a part list, newline-join into
a leading text part, else insert a new leading text part holding the
prompt. -/
def prependSystem (sp : MsgContent) (c : MsgContent) : MsgContent :=
  match c with
  | .str s => .str (pyStr sp ++ "\n" ++ s)
  | .parts ps =>
    match ps with
    | p :: rest =>
      if p.ptype == "text" then
        .parts ({ p with ptext := pyStr sp ++ "\n" ++ p.ptext } :: rest)
      else
        .parts (⟨"text", pyStr sp⟩ :: p :: rest)
    | [] => .parts [⟨"text", pyStr sp⟩]

/-- One Gemini content entry `{'role': …, 'parts': [{'text': content}]}`
(line 134): the single part's `text` holds the whole content value. -/
structure GContent where
  role : String
  partText : MsgContent
  deriving Repr, DecidableEq

/-- `convert_openai_to_gemini_request` (lines 106-136) over the message
list, with `sysP` threading the `system_prompt` variable (initially
`none`).  A `system` message stores its content (overwriting any pending
one) and emits nothing; any other role maps to `user`/`model`, and a
truthy pending prompt is consumed by the first user message. -/
def convert_openai_to_gemini_request : List Msg → Option MsgContent → List GContent
  | [], _ => []
  | m :: rest, sysP =>
    if m.role == "system" then
      convert_openai_to_gemini_request rest (some m.content)
    else
      let grole := if m.role == "user" then "user" else "model"
      match sysP with
      | some sp =>
        if truthy sp && grole == "user" then
          ⟨grole, prependSystem sp m.content⟩ ::
            convert_openai_to_gemini_request rest none
        else
          ⟨grole, m.content⟩ :: convert_openai_to_gemini_request rest (some sp)
      | none => ⟨grole, m.content⟩ :: convert_openai_to_gemini_request rest none

/-! ## Concrete scenario material used by counterexamples and witnesses -/

/-- A credential with some prior usage for model `"m"`. -/
def key1 : KeyInfo :=
  { key := .str "k1",
    usage := [("m", { token_count := 5, request_count := 1, rpd_limit_reached := false })] }

/-- A second, fresh credential. -/
def key2 : KeyInfo := { key := .str "k2", usage := [("m", freshRecord)] }

/-- A credential already benched for model `"m"`. -/
def keyExhausted : KeyInfo :=
  { key := .str "k3",
    usage := [("m", { token_count := 7, request_count := 9, rpd_limit_reached := true })] }

/-- A 429 body that parses to `retryDelay` 30 and also carries the
`quotaMetric` marker. -/
def bodyDelay30 : Body429 :=
  { details := some [{ isRetryInfo := true, rd := .value 30 }], hasQuotaMetric := true }

/-- A 429 body with no parsable delay but with the `quotaMetric` marker. -/
def bodyQuota : Body429 := { details := none, hasQuotaMetric := true }

/-- Upstream always answers 200. -/
def oracleOK : Oracle := fun _ _ => .resp 200 emptyBody

/-- Upstream answers 400 on the first attempt, then 200. -/
def oracleFatalThenOK : Oracle := fun _ a =>
  if a == 0 then .resp 400 emptyBody else .resp 200 emptyBody

/-- Upstream always answers 400. -/
def oracleFatal400 : Oracle := fun _ _ => .resp 400 emptyBody

/-- Upstream always answers 429 with a parsable 30-second retry delay. -/
def oracle429Delay : Oracle := fun _ _ => .resp 429 bodyDelay30

/-- Upstream answers 503, 503, then 200 on every key. -/
def oracle503 : Oracle := fun _ a =>
  if a ≤ 1 then .resp 503 emptyBody else .resp 200 emptyBody

/-- Key 0 always gets a quota-marked 429; any other key gets 200. -/
def oracleQuota : Oracle := fun i _ =>
  if i == 0 then .resp 429 bodyQuota else .resp 200 emptyBody

/-! ## Helper lemmas about the usage state -/

theorem lookupA_append_of_none {u : List (String × UsageRecord)} {m : String}
    (h : lookupA u m = none) (v : List (String × UsageRecord)) :
    lookupA (u ++ v) m = lookupA v m := by
  induction u with
  | nil => simp
  | cons e rest ih =>
    obtain ⟨k, r⟩ := e
    by_cases hk : k == m
    · simp [lookupA, hk] at h
    · simp only [lookupA, hk] at h ⊢
      simp only [List.cons_append, lookupA, hk, Bool.false_eq_true, if_false]
      exact ih h

theorem lookupA_setdefaultA_self (u : List (String × UsageRecord)) (m : String)
    (r₀ : UsageRecord) :
    lookupA (setdefaultA u m r₀) m = some ((lookupA u m).getD r₀) := by
  unfold setdefaultA
  cases h : lookupA u m with
  | some v => simp [h]
  | none => simp [lookupA_append_of_none h, lookupA]

theorem lookupA_setdefaultA_ne {m' m : String} (u : List (String × UsageRecord))
    (r₀ : UsageRecord) (h : m' ≠ m) :
    lookupA (setdefaultA u m r₀) m' = lookupA u m' := by
  unfold setdefaultA
  cases hm : lookupA u m with
  | some v => rfl
  | none =>
    induction u with
    | nil => simp [lookupA, (by simpa using fun hh => h hh.symm : (m == m') = false)]
    | cons e rest ih =>
      obtain ⟨k, r⟩ := e
      by_cases hk : k == m'
      · simp [lookupA, hk]
      · simp only [lookupA, hk] at *
        simp only [List.cons_append, lookupA, hk, Bool.false_eq_true, if_false]
        by_cases hkm : k == m
        · simp [lookupA, hkm] at hm
        · simp only [lookupA, hkm] at hm
          exact ih hm

theorem lookupA_updateA_self (u : List (String × UsageRecord)) (m : String)
    (f : UsageRecord → UsageRecord) :
    lookupA (updateA u m f) m = (lookupA u m).map f := by
  induction u with
  | nil => simp [updateA, lookupA]
  | cons e rest ih =>
    obtain ⟨k, r⟩ := e
    by_cases hk : k == m
    · simp [updateA, lookupA, hk]
    · simp [updateA, lookupA, hk, ih]

theorem lookupA_updateA_ne {m' m : String} (u : List (String × UsageRecord))
    (f : UsageRecord → UsageRecord) (h : m' ≠ m) :
    lookupA (updateA u m f) m' = lookupA u m' := by
  induction u with
  | nil => simp [updateA]
  | cons e rest ih =>
    obtain ⟨k, r⟩ := e
    by_cases hk : k == m
    · have hk' : (k == m') = false := by
        have : k = m := by simpa using hk
        subst this
        simpa using fun hh => h hh.symm
      simp [updateA, lookupA, hk, hk']
    · simp [updateA, lookupA, hk, ih]

theorem lookupA_map (u : List (String × UsageRecord)) (m : String)
    (g : UsageRecord → UsageRecord) :
    lookupA (u.map fun e => (e.1, g e.2)) m = (lookupA u m).map g := by
  induction u with
  | nil => simp [lookupA]
  | cons e rest ih =>
    obtain ⟨k, r⟩ := e
    by_cases hk : k == m
    · simp [lookupA, hk]
    · simp [lookupA, hk, ih]

theorem getRecord_modKey_ne {ks : List KeyInfo} {j i : Nat} {f : KeyInfo → KeyInfo}
    {m : String} (h : i ≠ j) :
    getRecord (modKey ks j f) i m = getRecord ks i m := by
  unfold modKey getRecord
  cases hj : ks[j]? with
  | none => rfl
  | some k => rw [List.getElem?_set_ne (fun he => h he.symm)]

theorem getRecord_modKey_self {ks : List KeyInfo} {i : Nat} {f : KeyInfo → KeyInfo}
    {m : String} {k : KeyInfo} (h : ks[i]? = some k) :
    getRecord (modKey ks i f) i m = lookupA (f k).usage m := by
  unfold modKey getRecord
  rw [h]
  have hi : i < ks.length := by
    by_contra hi
    rw [List.getElem?_eq_none (by omega)] at h
    exact Option.noConfusion h
  rw [List.getElem?_set_self hi]
  rfl

theorem getRecord_modKey_oob {ks : List KeyInfo} {i : Nat} {f : KeyInfo → KeyInfo}
    (h : ks[i]? = none) (i' : Nat) (m : String) :
    getRecord (modKey ks i f) i' m = getRecord ks i' m := by
  unfold modKey
  rw [h]


theorem getRecord_ensureRecord_oob {ks : List KeyInfo} {j : Nat} {m₀ : String}
    (h : ks[j]? = none) (i : Nat) (m : String) :
    getRecord (ensureRecord ks j m₀) i m = getRecord ks i m :=
  getRecord_modKey_oob h i m

theorem getRecord_setExhausted_oob {ks : List KeyInfo} {j : Nat} {m₀ : String}
    (h : ks[j]? = none) (i : Nat) (m : String) :
    getRecord (setExhausted ks j m₀) i m = getRecord ks i m :=
  getRecord_modKey_oob h i m

theorem getRecord_incReq_oob {ks : List KeyInfo} {j : Nat} {m₀ : String}
    (h : ks[j]? = none) (i : Nat) (m : String) :
    getRecord (incReq ks j m₀) i m = getRecord ks i m :=
  getRecord_modKey_oob h i m

theorem getRecord_ensureRecord_ne {ks : List KeyInfo} {j : Nat} {m₀ : String}
    {i : Nat} {m : String} (h : i ≠ j ∨ m ≠ m₀) :
    getRecord (ensureRecord ks j m₀) i m = getRecord ks i m := by
  rcases h with h | h
  · exact getRecord_modKey_ne h
  · by_cases hij : i = j
    · subst hij
      cases hk : ks[i]? with
      | none => exact getRecord_ensureRecord_oob hk i m
      | some k =>
        refine (getRecord_modKey_self hk).trans ?_
        show lookupA (setdefaultA k.usage m₀ freshRecord) m = getRecord ks i m
        rw [lookupA_setdefaultA_ne _ _ h]
        unfold getRecord
        rw [hk]
        rfl
    · exact getRecord_modKey_ne hij

theorem getRecord_ensureRecord_self {ks : List KeyInfo} {i : Nat} {m : String}
    {k : KeyInfo} (h : ks[i]? = some k) :
    getRecord (ensureRecord ks i m) i m =
      some ((getRecord ks i m).getD freshRecord) := by
  refine (getRecord_modKey_self h).trans ?_
  show lookupA (setdefaultA k.usage m freshRecord) m = _
  rw [lookupA_setdefaultA_self]
  unfold getRecord
  rw [h]
  rfl

theorem getRecord_setExhausted_ne {ks : List KeyInfo} {j : Nat} {m₀ : String}
    {i : Nat} {m : String} (h : i ≠ j ∨ m ≠ m₀) :
    getRecord (setExhausted ks j m₀) i m = getRecord ks i m := by
  rcases h with h | h
  · exact getRecord_modKey_ne h
  · by_cases hij : i = j
    · subst hij
      cases hk : ks[i]? with
      | none => exact getRecord_setExhausted_oob hk i m
      | some k =>
        refine (getRecord_modKey_self hk).trans ?_
        show lookupA (updateA (setdefaultA k.usage m₀ freshRecord) m₀ _) m =
          getRecord ks i m
        rw [lookupA_updateA_ne _ _ h, lookupA_setdefaultA_ne _ _ h]
        unfold getRecord
        rw [hk]
        rfl
    · exact getRecord_modKey_ne hij

theorem getRecord_setExhausted_self {ks : List KeyInfo} {i : Nat} {m : String}
    {k : KeyInfo} (h : ks[i]? = some k) :
    getRecord (setExhausted ks i m) i m =
      some { (getRecord ks i m).getD freshRecord with rpd_limit_reached := true } := by
  refine (getRecord_modKey_self h).trans ?_
  show lookupA (updateA (setdefaultA k.usage m freshRecord) m _) m = _
  rw [lookupA_updateA_self, lookupA_setdefaultA_self]
  unfold getRecord
  rw [h]
  rfl

theorem getRecord_incReq_ne {ks : List KeyInfo} {j : Nat} {m₀ : String}
    {i : Nat} {m : String} (h : i ≠ j ∨ m ≠ m₀) :
    getRecord (incReq ks j m₀) i m = getRecord ks i m := by
  rcases h with h | h
  · exact getRecord_modKey_ne h
  · by_cases hij : i = j
    · subst hij
      cases hk : ks[i]? with
      | none => exact getRecord_incReq_oob hk i m
      | some k =>
        refine (getRecord_modKey_self hk).trans ?_
        show lookupA (updateA k.usage m₀ _) m = getRecord ks i m
        rw [lookupA_updateA_ne _ _ h]
        unfold getRecord
        rw [hk]
        rfl
    · exact getRecord_modKey_ne hij

theorem getRecord_incReq_self {ks : List KeyInfo} {i : Nat} {m : String}
    {k : KeyInfo} (h : ks[i]? = some k) :
    getRecord (incReq ks i m) i m =
      (getRecord ks i m).map
        (fun r => { r with request_count := r.request_count + 1 }) := by
  refine (getRecord_modKey_self h).trans ?_
  show lookupA (updateA k.usage m _) m = _
  rw [lookupA_updateA_self]
  unfold getRecord
  rw [h]
  rfl

theorem rpdFlag_ensureRecord (ks : List KeyInfo) (j : Nat) (m₀ : String)
    (i : Nat) (m : String) :
    rpdFlag (ensureRecord ks j m₀) i m = rpdFlag ks i m := by
  unfold rpdFlag
  by_cases hij : i = j
  · by_cases hm : m = m₀
    · subst hij; subst hm
      cases hk : ks[i]? with
      | none => rw [getRecord_ensureRecord_oob hk]
      | some k =>
        rw [getRecord_ensureRecord_self hk]
        cases hr : getRecord ks i m with
        | none => simp [hr, freshRecord]
        | some r => simp [hr]
    · rw [getRecord_ensureRecord_ne (Or.inr hm)]
  · rw [getRecord_ensureRecord_ne (Or.inl hij)]

theorem reqCount_ensureRecord (ks : List KeyInfo) (j : Nat) (m₀ : String)
    (i : Nat) (m : String) :
    reqCount (ensureRecord ks j m₀) i m = reqCount ks i m := by
  unfold reqCount
  by_cases hij : i = j
  · by_cases hm : m = m₀
    · subst hij; subst hm
      cases hk : ks[i]? with
      | none => rw [getRecord_ensureRecord_oob hk]
      | some k =>
        rw [getRecord_ensureRecord_self hk]
        cases hr : getRecord ks i m with
        | none => simp [hr, freshRecord]
        | some r => simp [hr]
    · rw [getRecord_ensureRecord_ne (Or.inr hm)]
  · rw [getRecord_ensureRecord_ne (Or.inl hij)]

theorem tokCount_ensureRecord (ks : List KeyInfo) (j : Nat) (m₀ : String)
    (i : Nat) (m : String) :
    tokCount (ensureRecord ks j m₀) i m = tokCount ks i m := by
  unfold tokCount
  by_cases hij : i = j
  · by_cases hm : m = m₀
    · subst hij; subst hm
      cases hk : ks[i]? with
      | none => rw [getRecord_ensureRecord_oob hk]
      | some k =>
        rw [getRecord_ensureRecord_self hk]
        cases hr : getRecord ks i m with
        | none => simp [hr, freshRecord]
        | some r => simp [hr]
    · rw [getRecord_ensureRecord_ne (Or.inr hm)]
  · rw [getRecord_ensureRecord_ne (Or.inl hij)]

theorem reqCount_setExhausted (ks : List KeyInfo) (j : Nat) (m₀ : String)
    (i : Nat) (m : String) :
    reqCount (setExhausted ks j m₀) i m = reqCount ks i m := by
  unfold reqCount
  by_cases hij : i = j
  · by_cases hm : m = m₀
    · subst hij; subst hm
      cases hk : ks[i]? with
      | none => rw [getRecord_setExhausted_oob hk]
      | some k =>
        rw [getRecord_setExhausted_self hk]
        cases hr : getRecord ks i m with
        | none => simp [hr, freshRecord]
        | some r => simp [hr]
    · rw [getRecord_setExhausted_ne (Or.inr hm)]
  · rw [getRecord_setExhausted_ne (Or.inl hij)]

theorem tokCount_setExhausted (ks : List KeyInfo) (j : Nat) (m₀ : String)
    (i : Nat) (m : String) :
    tokCount (setExhausted ks j m₀) i m = tokCount ks i m := by
  unfold tokCount
  by_cases hij : i = j
  · by_cases hm : m = m₀
    · subst hij; subst hm
      cases hk : ks[i]? with
      | none => rw [getRecord_setExhausted_oob hk]
      | some k =>
        rw [getRecord_setExhausted_self hk]
        cases hr : getRecord ks i m with
        | none => simp [hr, freshRecord]
        | some r => simp [hr]
    · rw [getRecord_setExhausted_ne (Or.inr hm)]
  · rw [getRecord_setExhausted_ne (Or.inl hij)]

theorem rpdFlag_setExhausted_mono {ks : List KeyInfo} {j : Nat} {m₀ : String}
    {i : Nat} {m : String} (h : rpdFlag ks i m = true) :
    rpdFlag (setExhausted ks j m₀) i m = true := by
  unfold rpdFlag at h ⊢
  by_cases hij : i = j
  · by_cases hm : m = m₀
    · subst hij; subst hm
      cases hk : ks[i]? with
      | none =>
        rw [getRecord_setExhausted_oob hk]
        exact h
      | some k =>
        rw [getRecord_setExhausted_self hk]
        rfl
    · rw [getRecord_setExhausted_ne (Or.inr hm)]
      exact h
  · rw [getRecord_setExhausted_ne (Or.inl hij)]
    exact h

theorem rpdFlag_incReq (ks : List KeyInfo) (j : Nat) (m₀ : String)
    (i : Nat) (m : String) :
    rpdFlag (incReq ks j m₀) i m = rpdFlag ks i m := by
  unfold rpdFlag
  by_cases hij : i = j
  · by_cases hm : m = m₀
    · subst hij; subst hm
      cases hk : ks[i]? with
      | none => rw [getRecord_incReq_oob hk]
      | some k =>
        rw [getRecord_incReq_self hk]
        cases hr : getRecord ks i m with
        | none => simp [hr]
        | some r => simp [hr]
    · rw [getRecord_incReq_ne (Or.inr hm)]
  · rw [getRecord_incReq_ne (Or.inl hij)]

theorem tokCount_incReq (ks : List KeyInfo) (j : Nat) (m₀ : String)
    (i : Nat) (m : String) :
    tokCount (incReq ks j m₀) i m = tokCount ks i m := by
  unfold tokCount
  by_cases hij : i = j
  · by_cases hm : m = m₀
    · subst hij; subst hm
      cases hk : ks[i]? with
      | none => rw [getRecord_incReq_oob hk]
      | some k =>
        rw [getRecord_incReq_self hk]
        cases hr : getRecord ks i m with
        | none => simp [hr]
        | some r => simp [hr]
    · rw [getRecord_incReq_ne (Or.inr hm)]
  · rw [getRecord_incReq_ne (Or.inl hij)]

theorem reqCount_incReq_ne {ks : List KeyInfo} {j : Nat} {m₀ : String}
    {i : Nat} {m : String} (h : i ≠ j ∨ m ≠ m₀) :
    reqCount (incReq ks j m₀) i m = reqCount ks i m := by
  unfold reqCount
  rw [getRecord_incReq_ne h]

theorem reqCount_incReq_self {ks : List KeyInfo} {i : Nat} {m : String}
    {r : UsageRecord} (h : getRecord ks i m = some r) :
    reqCount (incReq ks i m) i m = reqCount ks i m + 1 := by
  have hk : ∃ k, ks[i]? = some k := by
    unfold getRecord at h
    cases hk : ks[i]? with
    | none => rw [hk] at h; exact Option.noConfusion h
    | some k => exact ⟨k, rfl⟩
  obtain ⟨k, hk⟩ := hk
  unfold reqCount
  rw [getRecord_incReq_self hk, h]
  rfl

/-! ## Characterizing one key's attempt loop -/

theorem prependEvents_eq_succeeded {es : List Event} {s : KeyStep}
    {ks₂ : List KeyInfo} {evs : List Event}
    (h : KeyStep.prependEvents es s = .succeeded ks₂ evs) :
    ∃ evs₀, s = .succeeded ks₂ evs₀ ∧ evs = es ++ evs₀ := by
  cases s with
  | succeeded ks e =>
    injection h with h1 h2
    exact ⟨e, by rw [h1], h2.symm⟩
  | moveOn ks le e => exact KeyStep.noConfusion h

theorem prependEvents_eq_moveOn {es : List Event} {s : KeyStep}
    {ks₂ : List KeyInfo} {le₂ : Option LastErr} {evs : List Event}
    (h : KeyStep.prependEvents es s = .moveOn ks₂ le₂ evs) :
    ∃ evs₀, s = .moveOn ks₂ le₂ evs₀ ∧ evs = es ++ evs₀ := by
  cases s with
  | succeeded ks e => exact KeyStep.noConfusion h
  | moveOn ks le e =>
    injection h with h1 h2 h3
    exact ⟨e, by rw [h1, h2], h3.symm⟩

theorem hrle_eq_some {ks : List KeyInfo} {i : Nat} {m : String} {b : Body429}
    {d : Delay} {ks₂ : List KeyInfo}
    (h : handle_rate_limit_error ks i m b = (some d, ks₂)) :
    ks₂ = ks ∧ parseRetryDelay b = some d := by
  unfold handle_rate_limit_error at h
  cases hp : parseRetryDelay b with
  | none =>
    rw [hp] at h
    by_cases hq : b.hasQuotaMetric <;> simp [hq] at h
  | some d₀ =>
    rw [hp] at h
    injection h with h1 h2
    injection h1 with h1
    subst h1
    exact ⟨h2.symm, rfl⟩

theorem hrle_eq_none {ks : List KeyInfo} {i : Nat} {m : String} {b : Body429}
    {ks₂ : List KeyInfo}
    (h : handle_rate_limit_error ks i m b = (none, ks₂)) :
    ks₂ = ks ∨ ks₂ = setExhausted ks i m := by
  unfold handle_rate_limit_error at h
  cases hp : parseRetryDelay b with
  | none =>
    rw [hp] at h
    by_cases hq : b.hasQuotaMetric
    · simp [hq] at h
      exact Or.inr h.symm
    · simp [hq] at h
      exact Or.inl h.symm
  | some d₀ =>
    rw [hp] at h
    exact absurd (congrArg Prod.fst h) (by simp)

/-- A success out of the attempt loop is exactly the usage increment of
lines 343-345 applied to the state the loop was entered with (retries
never mutate the state before the success). -/
theorem runAttempts_succeeded_state {oracle : Oracle} {i : Nat} {model : String} :
    ∀ {fuel : Nat} {ks : List KeyInfo} {le : Option LastErr}
      {ks₂ : List KeyInfo} {evs : List Event},
      runAttempts oracle i model fuel ks le = .succeeded ks₂ evs →
      ks₂ = incReq ks i model := by
  intro fuel
  induction fuel with
  | zero =>
    intro ks le ks₂ evs h
    exact KeyStep.noConfusion h
  | succ fuel ih =>
    intro ks le ks₂ evs h
    simp only [runAttempts] at h
    split at h
    · -- transport exception
      split at h
      · obtain ⟨evs₀, h₀, -⟩ := prependEvents_eq_succeeded h
        exact ih h₀
      · exact KeyStep.noConfusion h
    · -- an HTTP response
      split at h
      · -- 503 retry
        obtain ⟨evs₀, h₀, -⟩ := prependEvents_eq_succeeded h
        exact ih h₀
      · split at h
        · -- success
          injection h with h1 h2
          exact h1.symm
        · split at h
          · -- 429
            split at h
            next d ks₃ heq =>
              obtain ⟨evs₀, h₀, -⟩ := prependEvents_eq_succeeded h
              obtain ⟨hks, -⟩ := hrle_eq_some heq
              rw [hks] at h₀
              exact ih h₀
            next ks₃ heq => exact KeyStep.noConfusion h
          · -- other HTTPError
            split at h
            · obtain ⟨evs₀, h₀, -⟩ := prependEvents_eq_succeeded h
              exact ih h₀
            · exact KeyStep.noConfusion h

/-- Falling through to the next key leaves the entry state unchanged, or
with the pair freshly benched by the quota branch of
`handle_rate_limit_error`. -/
theorem runAttempts_moveOn_state {oracle : Oracle} {i : Nat} {model : String} :
    ∀ {fuel : Nat} {ks : List KeyInfo} {le : Option LastErr}
      {ks₂ : List KeyInfo} {le₂ : Option LastErr} {evs : List Event},
      runAttempts oracle i model fuel ks le = .moveOn ks₂ le₂ evs →
      ks₂ = ks ∨ ks₂ = setExhausted ks i model := by
  intro fuel
  induction fuel with
  | zero =>
    intro ks le ks₂ le₂ evs h
    injection h with h1 h2 h3
    exact Or.inl h1.symm
  | succ fuel ih =>
    intro ks le ks₂ le₂ evs h
    simp only [runAttempts] at h
    split at h
    · split at h
      · obtain ⟨evs₀, h₀, -⟩ := prependEvents_eq_moveOn h
        exact ih h₀
      · injection h with h1 h2 h3
        exact Or.inl h1.symm
    · split at h
      · obtain ⟨evs₀, h₀, -⟩ := prependEvents_eq_moveOn h
        exact ih h₀
      · split at h
        · exact KeyStep.noConfusion h
        · split at h
          · split at h
            next d ks₃ heq =>
              obtain ⟨evs₀, h₀, -⟩ := prependEvents_eq_moveOn h
              obtain ⟨hks, -⟩ := hrle_eq_some heq
              rw [hks] at h₀
              exact ih h₀
            next ks₃ heq =>
              injection h with h1 h2 h3
              rw [← h1]
              exact hrle_eq_none heq
          · split at h
            · obtain ⟨evs₀, h₀, -⟩ := prependEvents_eq_moveOn h
              exact ih h₀
            · injection h with h1 h2 h3
              exact Or.inl h1.symm

/-- Every `attempted` event of a successful attempt loop for key `i` names
key `i` itself. -/
theorem runAttempts_succeeded_events {oracle : Oracle} {i : Nat} {model : String} :
    ∀ {fuel : Nat} {ks : List KeyInfo} {le : Option LastErr}
      {ks₂ : List KeyInfo} {evs : List Event} {j a : Nat},
      runAttempts oracle i model fuel ks le = .succeeded ks₂ evs →
      Event.attempted j a ∈ evs → j = i := by
  intro fuel
  induction fuel with
  | zero =>
    intro ks le ks₂ evs j a h
    exact KeyStep.noConfusion h
  | succ fuel ih =>
    intro ks le ks₂ evs j a h hm
    simp only [runAttempts] at h
    split at h
    · split at h
      · obtain ⟨evs₀, h₀, hevs⟩ := prependEvents_eq_succeeded h
        subst hevs
        rcases List.mem_append.mp hm with hm | hm
        · simp at hm
          exact hm.1
        · exact ih h₀ hm
      · exact KeyStep.noConfusion h
    · split at h
      · obtain ⟨evs₀, h₀, hevs⟩ := prependEvents_eq_succeeded h
        subst hevs
        rcases List.mem_append.mp hm with hm | hm
        · simp at hm
          exact hm.1
        · exact ih h₀ hm
      · split at h
        · injection h with h1 h2
          subst h2
          simp at hm
          exact hm.1
        · split at h
          · split at h
            next d ks₃ heq =>
              obtain ⟨evs₀, h₀, hevs⟩ := prependEvents_eq_succeeded h
              subst hevs
              rcases List.mem_append.mp hm with hm | hm
              · simp at hm
                exact hm.1
              · exact ih h₀ hm
            next ks₃ heq => exact KeyStep.noConfusion h
          · split at h
            · obtain ⟨evs₀, h₀, hevs⟩ := prependEvents_eq_succeeded h
              subst hevs
              rcases List.mem_append.mp hm with hm | hm
              · simp at hm
                exact hm.1
              · exact ih h₀ hm
            · exact KeyStep.noConfusion h

/-- Every `attempted` event of an attempt loop for key `i` that falls
through names key `i` itself. -/
theorem runAttempts_moveOn_events {oracle : Oracle} {i : Nat} {model : String} :
    ∀ {fuel : Nat} {ks : List KeyInfo} {le : Option LastErr}
      {ks₂ : List KeyInfo} {le₂ : Option LastErr} {evs : List Event} {j a : Nat},
      runAttempts oracle i model fuel ks le = .moveOn ks₂ le₂ evs →
      Event.attempted j a ∈ evs → j = i := by
  intro fuel
  induction fuel with
  | zero =>
    intro ks le ks₂ le₂ evs j a h hm
    injection h with h1 h2 h3
    subst h3
    exact absurd hm (List.not_mem_nil _)
  | succ fuel ih =>
    intro ks le ks₂ le₂ evs j a h hm
    simp only [runAttempts] at h
    split at h
    · split at h
      · obtain ⟨evs₀, h₀, hevs⟩ := prependEvents_eq_moveOn h
        subst hevs
        rcases List.mem_append.mp hm with hm | hm
        · simp at hm
          exact hm.1
        · exact ih h₀ hm
      · injection h with h1 h2 h3
        subst h3
        simp at hm
        exact hm.1
    · split at h
      · obtain ⟨evs₀, h₀, hevs⟩ := prependEvents_eq_moveOn h
        subst hevs
        rcases List.mem_append.mp hm with hm | hm
        · simp at hm
          exact hm.1
        · exact ih h₀ hm
      · split at h
        · exact KeyStep.noConfusion h
        · split at h
          · split at h
            next d ks₃ heq =>
              obtain ⟨evs₀, h₀, hevs⟩ := prependEvents_eq_moveOn h
              subst hevs
              rcases List.mem_append.mp hm with hm | hm
              · simp at hm
                exact hm.1
              · exact ih h₀ hm
            next ks₃ heq =>
              injection h with h1 h2 h3
              subst h3
              simp at hm
              exact hm.1
          · split at h
            · obtain ⟨evs₀, h₀, hevs⟩ := prependEvents_eq_moveOn h
              subst hevs
              rcases List.mem_append.mp hm with hm | hm
              · simp at hm
                exact hm.1
              · exact ih h₀ hm
            · injection h with h1 h2 h3
              subst h3
              simp at hm
              exact hm.1

/-! ## Properties of the outer key loop -/

theorem runAttempts_rpd_mono {oracle : Oracle} {i : Nat} {model : String}
    {fuel : Nat} {ks : List KeyInfo} {le : Option LastErr} {s : KeyStep}
    (h : runAttempts oracle i model fuel ks le = s)
    {i₀ : Nat} {m₀ : String} (hf : rpdFlag ks i₀ m₀ = true) :
    rpdFlag s.state i₀ m₀ = true := by
  cases s with
  | succeeded ks₂ evs =>
    rw [runAttempts_succeeded_state h]
    unfold KeyStep.state
    rw [rpdFlag_incReq]
    exact hf
  | moveOn ks₂ le₂ evs =>
    unfold KeyStep.state
    rcases runAttempts_moveOn_state h with h' | h'
    · rw [h']
      exact hf
    · rw [h']
      exact rpdFlag_setExhausted_mono hf

/-- No dispatch step ever clears an `rpd_limit_reached` flag: the flag of
any (credential, model) pair survives a whole key-loop run. -/
theorem runKeys_rpd_mono {oracle : Oracle} {model : String} {i₀ : Nat} {m₀ : String} :
    ∀ {fuel i : Nat} {ks : List KeyInfo} {le : Option LastErr}
      {res : DispatchResult} {ks' : List KeyInfo} {evs : List Event},
      runKeys oracle model fuel i ks le = (res, ks', evs) →
      rpdFlag ks i₀ m₀ = true → rpdFlag ks' i₀ m₀ = true := by
  intro fuel
  induction fuel with
  | zero =>
    intro i ks le res ks' evs h hf
    injection h with h1 h2
    injection h2 with h2 h3
    rw [← h2]
    exact hf
  | succ fuel ih =>
    intro i ks le res ks' evs h hf
    simp only [runKeys] at h
    split at h
    · split at h
      · exact ih h ((rpdFlag_ensureRecord ks i model i₀ m₀).trans hf)
      · split at h
        next ks₂ evs₂ heq =>
          injection h with h1 h2
          injection h2 with h2 h3
          rw [← h2]
          have := runAttempts_rpd_mono heq
            ((rpdFlag_ensureRecord ks i model i₀ m₀).trans hf)
          exact this
        next ks₂ le₂ evs₂ heq =>
          rcases heq₂ : runKeys oracle model fuel (i + 1) ks₂ le₂ with ⟨res₃, ks₃, evs₃⟩
          rw [heq₂] at h
          injection h with h1 h2
          injection h2 with h2 h3
          rw [← h2]
          have hf₂ : rpdFlag ks₂ i₀ m₀ = true := by
            have := runAttempts_rpd_mono heq
              ((rpdFlag_ensureRecord ks i model i₀ m₀).trans hf)
            exact this
          exact ih heq₂ hf₂
    · injection h with h1 h2
      injection h2 with h2 h3
      rw [← h2]
      exact hf

/-- A pair whose flag is set when the key loop starts is never attempted
upstream during the loop, whatever the upstream does. -/
theorem runKeys_skips_exhausted {oracle : Oracle} {model : String} {i₀ : Nat} :
    ∀ {fuel i : Nat} {ks : List KeyInfo} {le : Option LastErr}
      {res : DispatchResult} {ks' : List KeyInfo} {evs : List Event},
      runKeys oracle model fuel i ks le = (res, ks', evs) →
      rpdFlag ks i₀ model = true →
      ∀ a, Event.attempted i₀ a ∉ evs := by
  intro fuel
  induction fuel with
  | zero =>
    intro i ks le res ks' evs h hf a
    injection h with h1 h2
    injection h2 with h2 h3
    rw [← h3]
    exact List.not_mem_nil _
  | succ fuel ih =>
    intro i ks le res ks' evs h hf a
    simp only [runKeys] at h
    split at h
    next hlen =>
      split at h
      next hskip =>
        exact ih h ((rpdFlag_ensureRecord ks i model i₀ model).trans hf) a
      next hskip =>
        have hne : i₀ ≠ i := by
          intro he
          subst he
          rw [rpdFlag_ensureRecord, hf] at hskip
          exact hskip rfl
        split at h
        next ks₂ evs₂ heq =>
          injection h with h1 h2
          injection h2 with h2 h3
          rw [← h3]
          intro hm
          exact hne (runAttempts_succeeded_events heq hm)
        next ks₂ le₂ evs₂ heq =>
          rcases heq₂ : runKeys oracle model fuel (i + 1) ks₂ le₂ with ⟨res₃, ks₃, evs₃⟩
          rw [heq₂] at h
          injection h with h1 h2
          injection h2 with h2 h3
          rw [← h3]
          intro hm
          rcases List.mem_append.mp hm with hm | hm
          · exact hne (runAttempts_moveOn_events heq hm)
          · have hf₂ : rpdFlag ks₂ i₀ model = true := by
              have := runAttempts_rpd_mono heq
                ((rpdFlag_ensureRecord ks i model i₀ model).trans hf)
              exact this
            exact ih heq₂ hf₂ a hm
    next hlen =>
      injection h with h1 h2
      injection h2 with h2 h3
      rw [← h3]
      exact List.not_mem_nil _

theorem proxy_rpd_mono {oracle : Oracle} {model : String} {ks : List KeyInfo}
    {i₀ : Nat} {m₀ : String} (hf : rpdFlag ks i₀ m₀ = true) :
    rpdFlag (proxy_to_gemini oracle model ks).2.1 i₀ m₀ = true := by
  unfold proxy_to_gemini
  split
  · exact hf
  · rcases h : runKeys oracle model ks.length 0 ks none with ⟨res, ks', evs⟩
    exact runKeys_rpd_mono h hf

theorem proxy_skips_exhausted {oracle : Oracle} {model : String} {ks : List KeyInfo}
    {i : Nat} (hf : rpdFlag ks i model = true) (a : Nat) :
    Event.attempted i a ∉ (proxy_to_gemini oracle model ks).2.2 := by
  unfold proxy_to_gemini
  split
  · exact List.not_mem_nil _
  · rcases h : runKeys oracle model ks.length 0 ks none with ⟨res, ks', evs⟩
    exact runKeys_skips_exhausted h hf a

theorem runSeq_rpd_mono {i₀ : Nat} {m₀ : String} :
    ∀ (reqs : List (Oracle × String)) {ks : List KeyInfo},
      rpdFlag ks i₀ m₀ = true → rpdFlag (runSeq reqs ks) i₀ m₀ = true := by
  intro reqs
  induction reqs with
  | nil =>
    intro ks hf
    exact hf
  | cons req rest ih =>
    intro ks hf
    obtain ⟨o, m⟩ := req
    exact ih (proxy_rpd_mono hf)

theorem finishResult_ne_success (le : Option LastErr) (i₀ : Nat) :
    finishResult le ≠ .success i₀ := by
  cases le <;> simp [finishResult]

/-- Frame property of a successful key-loop run: the serving pair's
`request_count` goes up by exactly 1; every other pair's `request_count`
and every pair's `token_count` are unchanged. -/
theorem runKeys_success_frame {oracle : Oracle} {model : String} :
    ∀ {fuel i : Nat} {ks : List KeyInfo} {le : Option LastErr}
      {i₀ : Nat} {ks' : List KeyInfo} {evs : List Event},
      runKeys oracle model fuel i ks le = (.success i₀, ks', evs) →
      (∀ j m, tokCount ks' j m = tokCount ks j m) ∧
      (∀ j m, ¬(j = i₀ ∧ m = model) → reqCount ks' j m = reqCount ks j m) ∧
      reqCount ks' i₀ model = reqCount ks i₀ model + 1 := by
  intro fuel
  induction fuel with
  | zero =>
    intro i ks le i₀ ks' evs h
    injection h with h1 h2
    exact absurd h1 (finishResult_ne_success le i₀)
  | succ fuel ih =>
    intro i ks le i₀ ks' evs h
    simp only [runKeys] at h
    split at h
    next hlen =>
      split at h
      next hskip =>
        obtain ⟨htok, hreq, hinc⟩ := ih h
        refine ⟨?_, ?_, ?_⟩
        · intro j m
          rw [htok j m, tokCount_ensureRecord]
        · intro j m hne
          rw [hreq j m hne, reqCount_ensureRecord]
        · rw [hinc, reqCount_ensureRecord]
      next hskip =>
        split at h
        next ks₂ evs₂ heq =>
          injection h with h1 h2
          injection h2 with h2 h3
          injection h1 with h1
          subst h1
          rw [← h2]
          have hks₂ : ks₂ = incReq (ensureRecord ks i model) i model :=
            runAttempts_succeeded_state heq
          subst hks₂
          have hrec : ∃ r, getRecord (ensureRecord ks i model) i model = some r := by
            refine ⟨(getRecord ks i model).getD freshRecord, ?_⟩
            exact getRecord_ensureRecord_self (List.getElem?_eq_getElem hlen)
          obtain ⟨r, hrec⟩ := hrec
          refine ⟨?_, ?_, ?_⟩
          · intro j m
            rw [tokCount_incReq, tokCount_ensureRecord]
          · intro j m hne
            have : j ≠ i ∨ m ≠ model := by
              by_cases hj : j = i
              · subst hj
                exact Or.inr fun hm => hne ⟨rfl, hm⟩
              · exact Or.inl hj
            rw [reqCount_incReq_ne this, reqCount_ensureRecord]
          · rw [reqCount_incReq_self hrec, reqCount_ensureRecord]
        next ks₂ le₂ evs₂ heq =>
          rcases heq₂ : runKeys oracle model fuel (i + 1) ks₂ le₂ with ⟨res₃, ks₃, evs₃⟩
          rw [heq₂] at h
          injection h with h1 h2
          injection h2 with h2 h3
          subst h1
          rw [← h2]
          obtain ⟨htok, hreq, hinc⟩ := ih heq₂
          have hst : ks₂ = ensureRecord ks i model ∨
              ks₂ = setExhausted (ensureRecord ks i model) i model :=
            runAttempts_moveOn_state heq
          rcases hst with hst | hst <;> subst hst
          · refine ⟨?_, ?_, ?_⟩
            · intro j m
              rw [htok j m, tokCount_ensureRecord]
            · intro j m hne
              rw [hreq j m hne, reqCount_ensureRecord]
            · rw [hinc, reqCount_ensureRecord]
          · refine ⟨?_, ?_, ?_⟩
            · intro j m
              rw [htok j m, tokCount_setExhausted, tokCount_ensureRecord]
            · intro j m hne
              rw [hreq j m hne, reqCount_setExhausted, reqCount_ensureRecord]
            · rw [hinc, reqCount_setExhausted, reqCount_ensureRecord]
    next hlen =>
      injection h with h1 h2
      exact absurd h1 (finishResult_ne_success le i₀)

/-! ## Claims -/

/-- **C1**: exhaustion is sticky. Once `rpd_limit_reached` is set for a
(credential, model) pair, then after any sequence of further requests
(with arbitrary upstream behaviour) the flag is still set, and the next
request for that model never attempts that credential upstream: the pair
is skipped until a reset clears the flag. -/
theorem C1_exhaustion_sticky (ks : List KeyInfo) (i : Nat) (model : String)
    (h : rpdFlag ks i model = true) (reqs : List (Oracle × String))
    (o : Oracle) (a : Nat) :
    rpdFlag (runSeq reqs ks) i model = true ∧
    Event.attempted i a ∉ (proxy_to_gemini o model (runSeq reqs ks)).2.2 :=
  ⟨runSeq_rpd_mono reqs h, proxy_skips_exhausted (runSeq_rpd_mono reqs h) a⟩

/-- Witness for C1 at a concrete exhausted pair, after one intervening
request. -/
theorem C1_exhaustion_sticky_witness :
    rpdFlag [keyExhausted, key2] 0 "m" = true ∧
    (rpdFlag (runSeq [(oracleOK, "m")] [keyExhausted, key2]) 0 "m" = true ∧
      Event.attempted 0 0 ∉
        (proxy_to_gemini oracleOK "m"
          (runSeq [(oracleOK, "m")] [keyExhausted, key2])).2.2) :=
  ⟨by decide,
    C1_exhaustion_sticky [keyExhausted, key2] 0 "m" (by decide)
      [(oracleOK, "m")] oracleOK 0⟩

/-- **C7**: the daily reset body is idempotent, and one run clears every
flag and zeroes every `request_count` while keeping every `token_count`. -/
theorem C7_reset_idempotent (ks : List KeyInfo) :
    reset_rpd_limits_daily (reset_rpd_limits_daily ks) = reset_rpd_limits_daily ks ∧
    ∀ i m, getRecord (reset_rpd_limits_daily ks) i m =
      (getRecord ks i m).map fun r =>
        { token_count := r.token_count, request_count := 0,
          rpd_limit_reached := false } := by
  constructor
  · unfold reset_rpd_limits_daily
    rw [List.map_map]
    refine List.map_congr_left ?_
    intro k hk
    refine congrArg (fun u => KeyInfo.mk k.key u) ?_
    rw [List.map_map]
    refine List.map_congr_left ?_
    intro e he
    rfl
  · intro i m
    unfold reset_rpd_limits_daily getRecord
    rw [List.getElem?_map]
    cases hk : ks[i]? with
    | none => rfl
    | some k =>
      exact lookupA_map k.usage m
        (fun r => { r with rpd_limit_reached := false, request_count := 0 })

/-- **C9**: the legacy nested-pair credential shape `{'key': [x, k]}` yields
the same in-memory api key as the bare-string shape `k`. -/
theorem C9_legacy_key_equivalence (k : String) (x : JVal) :
    extract_api_key (.obj [("key", .arr [x, .str k])]) = some (.str k) ∧
    extract_api_key (.str k) = some (.str k) := by
  constructor
  · rfl
  · rfl

/-- **C10**: a parsable `retryDelay` takes precedence: the handler returns
the parsed delay and leaves the state untouched, whatever the body's
`quotaMetric` marker says. -/
theorem C10_delay_precedes_quota (ks : List KeyInfo) (i : Nat) (m : String)
    (b : Body429) (d : Delay) (h : parseRetryDelay b = some d) :
    handle_rate_limit_error ks i m b = (some d, ks) := by
  unfold handle_rate_limit_error
  rw [h]

/-- Witness for C10 on a body that carries both a parsable delay and the
quota marker. -/
theorem C10_delay_precedes_quota_witness :
    bodyDelay30.hasQuotaMetric = true ∧
    handle_rate_limit_error [key1] 0 "m" bodyDelay30 = (some 30, [key1]) :=
  ⟨by decide, C10_delay_precedes_quota [key1] 0 "m" bodyDelay30 30 (by decide)⟩

/-- Counterexample to **C6** as stated: a successful request leaves
`token_count` untouched (still 5) while `request_count` goes from 1 to 2;
the success path does not increment both counters. -/
theorem C6_counterexample :
    (proxy_to_gemini oracleOK "m" [key1]).1 = .success 0 ∧
    getRecord [key1] 0 "m" =
      some { token_count := 5, request_count := 1, rpd_limit_reached := false } ∧
    getRecord (proxy_to_gemini oracleOK "m" [key1]).2.1 0 "m" =
      some { token_count := 5, request_count := 2, rpd_limit_reached := false } := by
  decide

/-- **C6 (amended)**: the success-recording operation increments only
`request_count`; `token_count` and the exhaustion flag are unchanged. -/
theorem C6_amended_success_recording (ks : List KeyInfo) (i : Nat) (m : String)
    (r : UsageRecord) (h : getRecord ks i m = some r) :
    getRecord (incReq ks i m) i m =
      some { token_count := r.token_count, request_count := r.request_count + 1,
             rpd_limit_reached := r.rpd_limit_reached } := by
  have hk : ∃ k, ks[i]? = some k := by
    unfold getRecord at h
    cases hk : ks[i]? with
    | none => rw [hk] at h; exact Option.noConfusion h
    | some k => exact ⟨k, rfl⟩
  obtain ⟨k, hk⟩ := hk
  rw [getRecord_incReq_self hk, h]
  rfl

/-- Witness for the amended C6 on a concrete record. -/
theorem C6_amended_success_recording_witness :
    getRecord (incReq [key1] 0 "m") 0 "m" =
      some { token_count := 5, request_count := 2, rpd_limit_reached := false } :=
  C6_amended_success_recording [key1] 0 "m"
    { token_count := 5, request_count := 1, rpd_limit_reached := false } (by decide)

/-- Counterexample to **C5** as stated: both credentials hold unexhausted
records for `"m"`; key 0 receives a quota-marked 429, key 1 serves the
request. The request succeeds, but the non-serving record of key 0 is not
unchanged: its exhaustion flag was set during the same request. -/
theorem C5_counterexample :
    rpdFlag [key1, key2] 0 "m" = false ∧
    rpdFlag [key1, key2] 1 "m" = false ∧
    (proxy_to_gemini oracleQuota "m" [key1, key2]).1 = .success 1 ∧
    getRecord [key1, key2] 0 "m" =
      some { token_count := 5, request_count := 1, rpd_limit_reached := false } ∧
    getRecord (proxy_to_gemini oracleQuota "m" [key1, key2]).2.1 0 "m" =
      some { token_count := 5, request_count := 1, rpd_limit_reached := true } := by
  decide

/-- **C5 (amended)**: when a request succeeds via credential `i₀`, exactly
that pair's `request_count` goes up by 1; every other pair's
`request_count` and every pair's `token_count` are unchanged (exhaustion
flags of earlier-tried credentials may however be newly set, and missing
records may be created with zero counts). -/
theorem C5_amended_success_frame (oracle : Oracle) (model : String)
    (ks : List KeyInfo) (i₀ : Nat) (ks' : List KeyInfo) (evs : List Event)
    (h : proxy_to_gemini oracle model ks = (.success i₀, ks', evs)) :
    reqCount ks' i₀ model = reqCount ks i₀ model + 1 ∧
    (∀ j m, ¬(j = i₀ ∧ m = model) → reqCount ks' j m = reqCount ks j m) ∧
    (∀ j m, tokCount ks' j m = tokCount ks j m) := by
  unfold proxy_to_gemini at h
  split at h
  · exact absurd (congrArg Prod.fst h) (by simp)
  · obtain ⟨htok, hreq, hinc⟩ := runKeys_success_frame h
    exact ⟨hinc, hreq, htok⟩

/-- Witness for the amended C5 on the quota-then-success scenario. -/
theorem C5_amended_success_frame_witness :
    reqCount
        [⟨.str "k1", [("m", { token_count := 5, request_count := 1, rpd_limit_reached := true })]⟩,
         ⟨.str "k2", [("m", { token_count := 0, request_count := 1, rpd_limit_reached := false })]⟩]
        1 "m" =
      reqCount [key1, key2] 1 "m" + 1 :=
  (C5_amended_success_frame oracleQuota "m" [key1, key2] 1
    [⟨.str "k1", [("m", { token_count := 5, request_count := 1, rpd_limit_reached := true })]⟩,
     ⟨.str "k2", [("m", { token_count := 0, request_count := 1, rpd_limit_reached := false })]⟩]
    [.attempted 0 0, .attempted 1 0] rfl).1

/-- Counterexample to **C2** as stated: the first attempt of key 0 returns a
Fatal 400 (not 429, not 503), yet the engine retries the same credential
after a 3-second sleep and succeeds on attempt 1 — it does not move to the
next credential. -/
theorem C2_counterexample :
    oracleFatalThenOK 0 0 = .resp 400 emptyBody ∧
    (proxy_to_gemini oracleFatalThenOK "m" [key1]).1 = .success 0 ∧
    (proxy_to_gemini oracleFatalThenOK "m" [key1]).2.2 =
      [.attempted 0 0, .slept RETRY_DELAY_SECONDS, .attempted 0 1] :=
  ⟨rfl, by decide, by decide⟩

/-- **C2 (amended)**: a 4xx/5xx other than 429 and 503 is retried on the same
credential after a 3-second sleep while attempts remain; only on the final
attempt (the third) is it remembered as the fallback error before moving to
the next credential. -/
theorem C2_amended_fatal_retried (oracle : Oracle) (i : Nat) (model : String)
    (ks : List KeyInfo) (le : Option LastErr) (s : Nat) (body : Body429)
    (h4 : 400 ≤ s) (h429 : s ≠ 429) (h503 : s ≠ 503) :
    (oracle i 0 = .resp s body →
      runAttempts oracle i model MAX_RETRIES ks le =
        KeyStep.prependEvents [.attempted i 0, .slept RETRY_DELAY_SECONDS]
          (runAttempts oracle i model 2 ks le)) ∧
    (oracle i 1 = .resp s body →
      runAttempts oracle i model 2 ks le =
        KeyStep.prependEvents [.attempted i 1, .slept RETRY_DELAY_SECONDS]
          (runAttempts oracle i model 1 ks le)) ∧
    (oracle i 2 = .resp s body →
      runAttempts oracle i model 1 ks le =
        .moveOn ks (some (.httpResp s)) [.attempted i 2]) := by
  have h503b : (s == 503) = false := by simp [h503]
  have h429b : (s == 429) = false := by simp [h429]
  have hlt : ¬ s < 400 := Nat.not_lt.mpr h4
  refine ⟨?_, ?_, ?_⟩
  · intro ho
    show runAttempts oracle i model 3 ks le = _
    rw [runAttempts]
    simp only [MAX_RETRIES]
    rw [ho]
    simp [h503b, h429b, hlt]
  · intro ho
    rw [runAttempts]
    simp only [MAX_RETRIES]
    rw [ho]
    simp [h503b, h429b, hlt]
  · intro ho
    rw [runAttempts]
    simp only [MAX_RETRIES]
    rw [ho]
    simp [h503b, h429b, hlt, KeyStep.prependEvents]

/-- Witness for the amended C2: a 400 on the final attempt is remembered as
the fallback error. -/
theorem C2_amended_fatal_retried_witness :
    runAttempts oracleFatal400 0 "m" 1 [key1] none =
      .moveOn [key1] (some (.httpResp 400)) [.attempted 0 2] :=
  (C2_amended_fatal_retried oracleFatal400 0 "m" [key1] none 400 emptyBody
    (by decide) (by decide) (by decide)).2.2 rfl

/-- Counterexample to **C3** as stated: every attempt of the only credential
returns a 429 with a parsable 30-second delay. The engine sleeps 30 s three
times and moves on, but it does NOT remember the 429 as the fallback error:
the final result is the synthesized all-exhausted 503, not the 429. -/
theorem C3_counterexample :
    (proxy_to_gemini oracle429Delay "m" [key1]).1 = .allExhausted ∧
    (proxy_to_gemini oracle429Delay "m" [key1]).1 ≠ .errResp (.httpResp 429) ∧
    (proxy_to_gemini oracle429Delay "m" [key1]).2.2 =
      [.attempted 0 0, .slept 30, .attempted 0 1, .slept 30,
       .attempted 0 2, .slept 30] := by
  refine ⟨by decide, by decide, by decide⟩

/-- **C3 (amended)**: a 429 whose body parses to a retry delay `d` makes the
engine sleep exactly `d` and retry the same credential, within the shared
3-attempt budget; when the budget is exhausted the engine moves to the next
credential WITHOUT remembering the 429 as the fallback error
(`last_error_response` is left as it was). -/
theorem C3_amended_delay_retry (oracle : Oracle) (i : Nat) (model : String)
    (ks : List KeyInfo) (le : Option LastErr) (body : Body429) (d : Delay)
    (hd : parseRetryDelay body = some d) :
    (oracle i 0 = .resp 429 body →
      runAttempts oracle i model MAX_RETRIES ks le =
        KeyStep.prependEvents [.attempted i 0, .slept d]
          (runAttempts oracle i model 2 ks le)) ∧
    (oracle i 1 = .resp 429 body →
      runAttempts oracle i model 2 ks le =
        KeyStep.prependEvents [.attempted i 1, .slept d]
          (runAttempts oracle i model 1 ks le)) ∧
    (oracle i 2 = .resp 429 body →
      runAttempts oracle i model 1 ks le =
        .moveOn ks le [.attempted i 2, .slept d]) := by
  have hh : handle_rate_limit_error ks i model body = (some d, ks) := by
    unfold handle_rate_limit_error
    rw [hd]
  refine ⟨?_, ?_, ?_⟩
  · intro ho
    show runAttempts oracle i model 3 ks le = _
    rw [runAttempts]
    simp only [MAX_RETRIES]
    rw [ho]
    simp [hh]
  · intro ho
    rw [runAttempts]
    simp only [MAX_RETRIES]
    rw [ho]
    simp [hh]
  · intro ho
    rw [runAttempts]
    simp only [MAX_RETRIES]
    rw [ho]
    simp [hh, KeyStep.prependEvents, runAttempts]

/-- Witness for the amended C3: after the third 429-with-delay, the engine
moves on with `last_error_response` untouched (`none`), having slept the
parsed 30 seconds. -/
theorem C3_amended_delay_retry_witness :
    runAttempts oracle429Delay 0 "m" 1 [key1] none =
      .moveOn [key1] none [.attempted 0 2, .slept 30] :=
  (C3_amended_delay_retry oracle429Delay 0 "m" [key1] none bodyDelay30 30
    (by decide)).2.2 rfl

/-- **C4**: for a credential whose upstream returns 503, 503, then 200, the
request succeeds on that same credential, each non-final 503 sleeping 3
seconds, and the trace shows no attempt on any other credential. -/
theorem C4_transient_retry_same_key (oracle : Oracle) (model : String)
    (ks : List KeyInfo) (b₁ b₂ b₃ : Body429)
    (hne : ks ≠ [])
    (hflag : rpdFlag ks 0 model = false)
    (h0 : oracle 0 0 = .resp 503 b₁) (h1 : oracle 0 1 = .resp 503 b₂)
    (h2 : oracle 0 2 = .resp 200 b₃) :
    (proxy_to_gemini oracle model ks).1 = .success 0 ∧
    (proxy_to_gemini oracle model ks).2.2 =
      [.attempted 0 0, .slept RETRY_DELAY_SECONDS, .attempted 0 1,
       .slept RETRY_DELAY_SECONDS, .attempted 0 2] := by
  obtain ⟨k, rest, rfl⟩ : ∃ k rest, ks = k :: rest := by
    cases ks with
    | nil => exact absurd rfl hne
    | cons k rest => exact ⟨k, rest, rfl⟩
  have hra1 : runAttempts oracle 0 model 1
        (ensureRecord (k :: rest) 0 model) none =
      .succeeded (incReq (ensureRecord (k :: rest) 0 model) 0 model)
        [.attempted 0 2] := by
    rw [runAttempts]
    simp only [MAX_RETRIES]
    rw [h2]
    simp
  have hra2 : runAttempts oracle 0 model 2
        (ensureRecord (k :: rest) 0 model) none =
      .succeeded (incReq (ensureRecord (k :: rest) 0 model) 0 model)
        [.attempted 0 1, .slept RETRY_DELAY_SECONDS, .attempted 0 2] := by
    rw [runAttempts]
    simp only [MAX_RETRIES]
    rw [h1]
    simp [hra1, KeyStep.prependEvents]
  have hra : runAttempts oracle 0 model MAX_RETRIES
        (ensureRecord (k :: rest) 0 model) none =
      .succeeded (incReq (ensureRecord (k :: rest) 0 model) 0 model)
        [.attempted 0 0, .slept RETRY_DELAY_SECONDS, .attempted 0 1,
         .slept RETRY_DELAY_SECONDS, .attempted 0 2] := by
    show runAttempts oracle 0 model 3 (ensureRecord (k :: rest) 0 model) none = _
    rw [runAttempts]
    simp only [MAX_RETRIES]
    rw [h0]
    simp [hra2, KeyStep.prependEvents]
  have hskip : rpdFlag (ensureRecord (k :: rest) 0 model) 0 model = false := by
    rw [rpdFlag_ensureRecord]
    exact hflag
  unfold proxy_to_gemini
  rw [if_neg (by simp : ¬(k :: rest).isEmpty = true)]
  simp only [List.length_cons]
  rw [runKeys]
  rw [if_pos (show (0:Nat) < (k :: rest).length from Nat.succ_pos rest.length)]
  rw [hskip]
  rw [if_neg Bool.false_ne_true]
  rw [hra]
  exact ⟨rfl, rfl⟩

/-- Witness for C4 on a concrete two-credential pool: only key 0 is touched. -/
theorem C4_transient_retry_same_key_witness :
    (proxy_to_gemini oracle503 "m" [key1, key2]).1 = .success 0 ∧
    (proxy_to_gemini oracle503 "m" [key1, key2]).2.2 =
      [.attempted 0 0, .slept RETRY_DELAY_SECONDS, .attempted 0 1,
       .slept RETRY_DELAY_SECONDS, .attempted 0 2] :=
  C4_transient_retry_same_key oracle503 "m" [key1, key2]
    emptyBody emptyBody emptyBody (List.cons_ne_nil _ _) (by decide) rfl rfl rfl

/-- The truthiness check `if system_prompt` on a nonempty flat string. -/
theorem truthy_str_of_ne {s : String} (h : s ≠ "") : truthy (.str s) = true := by
  have he : s.isEmpty = false := by
    cases he : s.isEmpty with
    | false => rfl
    | true => exact absurd ((String.isEmpty_iff s).mp he) h
  simp [truthy, he]

/-- Counterexample to **C8** as stated: with two system messages before the
first user message, the translator prepends the LATER system text ("B") and
silently drops the earlier one ("A") — not the other way round as the claim
("a single leading system message is consumed … later system messages …
are silently dropped") requires. -/
theorem C8_counterexample :
    convert_openai_to_gemini_request
        [⟨"system", .str "A"⟩, ⟨"system", .str "B"⟩, ⟨"user", .str "hi"⟩] none =
      [⟨"user", .str "B\nhi"⟩] ∧
    (⟨"user", .str "B\nhi"⟩ : GContent) ≠ ⟨"user", .str "A\nhi"⟩ := by
  refine ⟨by decide, by decide⟩

/-- **C8 (amended)**: the translator keeps the MOST RECENT system message
seen so far; a truthy pending system text is prepended (newline-joined)
onto the first subsequent user message — directly for a flat string, into
a leading text part, or as a new leading text part — and is consumed by
that; system messages superseded before any user message are silently
dropped. -/
theorem C8_amended_system_handling :
    (∀ (s₁ s₂ u : String) (rest : List Msg), s₂ ≠ "" →
      convert_openai_to_gemini_request
          (⟨"system", .str s₁⟩ :: ⟨"system", .str s₂⟩ :: ⟨"user", .str u⟩ :: rest)
          none =
        ⟨"user", .str (s₂ ++ "\n" ++ u)⟩ ::
          convert_openai_to_gemini_request rest none) ∧
    (∀ (s u : String) (rest : List Msg), s ≠ "" →
      convert_openai_to_gemini_request
          (⟨"system", .str s⟩ :: ⟨"user", .str u⟩ :: rest) none =
        ⟨"user", .str (s ++ "\n" ++ u)⟩ ::
          convert_openai_to_gemini_request rest none) ∧
    (∀ (s t : String) (ps : List PartD) (rest : List Msg), s ≠ "" →
      convert_openai_to_gemini_request
          (⟨"system", .str s⟩ :: ⟨"user", .parts (⟨"text", t⟩ :: ps)⟩ :: rest)
          none =
        ⟨"user", .parts (⟨"text", s ++ "\n" ++ t⟩ :: ps)⟩ ::
          convert_openai_to_gemini_request rest none) ∧
    (∀ (s : String) (p : PartD) (ps : List PartD) (rest : List Msg),
      s ≠ "" → p.ptype ≠ "text" →
      convert_openai_to_gemini_request
          (⟨"system", .str s⟩ :: ⟨"user", .parts (p :: ps)⟩ :: rest) none =
        ⟨"user", .parts (⟨"text", s⟩ :: p :: ps)⟩ ::
          convert_openai_to_gemini_request rest none) := by
  refine ⟨?_, ?_, ?_, ?_⟩
  · intro s₁ s₂ u rest h
    simp [convert_openai_to_gemini_request, truthy_str_of_ne h, prependSystem, pyStr]
  · intro s u rest h
    simp [convert_openai_to_gemini_request, truthy_str_of_ne h, prependSystem, pyStr]
  · intro s t ps rest h
    simp [convert_openai_to_gemini_request, truthy_str_of_ne h, prependSystem, pyStr]
  · intro s p ps rest h hp
    have hpb : (p.ptype == "text") = false := by simp [hp]
    simp [convert_openai_to_gemini_request, truthy_str_of_ne h, prependSystem,
      pyStr, hpb]

/-- Witness for the amended C8: all four shapes at concrete inputs. -/
theorem C8_amended_system_handling_witness :
    convert_openai_to_gemini_request
        [⟨"system", .str "A"⟩, ⟨"system", .str "B"⟩, ⟨"user", .str "hi"⟩] none =
      [⟨"user", .str "B\nhi"⟩] ∧
    convert_openai_to_gemini_request
        [⟨"system", .str "S"⟩, ⟨"user", .str "hi"⟩] none =
      [⟨"user", .str "S\nhi"⟩] ∧
    convert_openai_to_gemini_request
        [⟨"system", .str "S"⟩, ⟨"user", .parts [⟨"text", "t"⟩]⟩] none =
      [⟨"user", .parts [⟨"text", "S\nt"⟩]⟩] ∧
    convert_openai_to_gemini_request
        [⟨"system", .str "S"⟩, ⟨"user", .parts [⟨"image", "u"⟩]⟩] none =
      [⟨"user", .parts [⟨"text", "S"⟩, ⟨"image", "u"⟩]⟩] :=
  ⟨C8_amended_system_handling.1 "A" "B" "hi" [] (by decide),
   C8_amended_system_handling.2.1 "S" "hi" [] (by decide),
   C8_amended_system_handling.2.2.1 "S" "t" [] [] (by decide),
   C8_amended_system_handling.2.2.2 "S" ⟨"image", "u"⟩ [] [] (by decide) (by decide)⟩

end GeminiProxy
